import Mathlib

/-!
Verification of the device communication layer of the `hmtk` repository:
the `key=value` status codec (`Message::parse`), the per-field raw record
decoder (`RawDeviceInfo`), the bitfield-to-domain transform
(`DeviceInfo::from`), the session operation (`Device::device_info`), the
event-loop step behaviour (`DeviceLoop::run`) and the MQTT topic layout
(`DeviceOptions`).

Text is modelled as lists of Unicode scalar values (`List Nat`), raw
payloads as lists of byte values (`List Nat`).  Fallible Rust functions
returning `Result` are modelled with `Except`; Rust panics (`unwrap` /
`expect`) are modelled with an explicit `panic` constructor of an outcome
type.
-/

/-- Unicode scalar values of a Lean string literal; for the ASCII literals
used throughout this development this is also its UTF-8 byte sequence. -/
def str (s : String) : List Nat :=
  s.data.map Char.toNat

/-- A text value: list of Unicode scalar values (mirrors Rust `String`). -/
abbrev Str := List Nat

/-- Is `b` a UTF-8 continuation byte (`0x80..=0xBF`)? -/
def isCont (b : Nat) : Bool :=
  128 ≤ b && b ≤ 191

/-- One step of UTF-8 decoding, with fuel; mirrors the validation performed
by Rust `std::str::from_utf8` (rejecting overlong forms, surrogates and
code points above U+10FFFF). -/
def utf8DecodeAux : Nat → List Nat → Option (List Nat)
  | _, [] => some []
  | 0, _ :: _ => none
  | fuel + 1, b :: rest =>
    if b ≤ 127 then
      (utf8DecodeAux fuel rest).map (b :: ·)
    else
      match rest with
      | [] => none
      | b2 :: rest2 =>
        if 194 ≤ b && b ≤ 223 && isCont b2 then
          (utf8DecodeAux fuel rest2).map (((b - 192) * 64 + (b2 - 128)) :: ·)
        else
          match rest2 with
          | [] => none
          | b3 :: rest3 =>
            if ((b == 224 && 160 ≤ b2 && b2 ≤ 191) ||
                (225 ≤ b && b ≤ 236 && isCont b2) ||
                (b == 237 && 128 ≤ b2 && b2 ≤ 159) ||
                (238 ≤ b && b ≤ 239 && isCont b2)) && isCont b3 then
              (utf8DecodeAux fuel rest3).map
                (((b - 224) * 4096 + (b2 - 128) * 64 + (b3 - 128)) :: ·)
            else
              match rest3 with
              | [] => none
              | b4 :: rest4 =>
                if ((b == 240 && 144 ≤ b2 && b2 ≤ 191) ||
                    (241 ≤ b && b ≤ 243 && isCont b2) ||
                    (b == 244 && 128 ≤ b2 && b2 ≤ 143)) &&
                    isCont b3 && isCont b4 then
                  (utf8DecodeAux fuel rest4).map
                    (((b - 240) * 262144 + (b2 - 128) * 4096 +
                      (b3 - 128) * 64 + (b4 - 128)) :: ·)
                else
                  none

/-- UTF-8 validation/decoding of a byte sequence, as done by
`std::str::from_utf8` in `Message::parse`. -/
def utf8Decode (bytes : List Nat) : Option Str :=
  utf8DecodeAux bytes.length bytes

/-- Unicode `White_Space` code points, the set trimmed by Rust
`str::trim` (via `char::is_whitespace`). -/
def isRustWhitespace (c : Nat) : Bool :=
  (9 ≤ c && c ≤ 13) || c == 32 || c == 133 || c == 160 || c == 5760 ||
  (8192 ≤ c && c ≤ 8202) || c == 8232 || c == 8233 || c == 8239 ||
  c == 8287 || c == 12288

/-- Rust `str::trim`: strip leading and trailing whitespace. -/
def rustTrim (s : Str) : Str :=
  ((s.dropWhile isRustWhitespace).reverse.dropWhile isRustWhitespace).reverse

/-- Rust `str::split(sep)`: the list of (possibly empty) segments between
occurrences of `sep`; always non-empty (`""` splits to `[""]`). -/
def rustSplit (sep : Nat) : Str → List Str
  | [] => [[]]
  | c :: rest =>
    if c = sep then
      [] :: rustSplit sep rest
    else
      match rustSplit sep rest with
      | s :: ss => (c :: s) :: ss
      | [] => [[c]]

/-- Rust `str::split_once(sep)`: split at the first occurrence of `sep`,
`none` when `sep` does not occur. -/
def splitOnce (sep : Nat) : Str → Option (Str × Str)
  | [] => none
  | c :: rest =>
    if c = sep then
      some ([], rest)
    else
      (splitOnce sep rest).map (fun kv => (c :: kv.1, kv.2))

/-! ### Key/value map

`BTreeMap<String, String>` is modelled by an association list together
with an insert that overwrites the entry of an existing key (the Rust
`insert` semantics relevant to lookups: last insertion of a key wins). -/

/-- Map insertion: replace the value of an existing key, else append. -/
def mapInsert : List (Str × Str) → Str → Str → List (Str × Str)
  | [], k, v => [(k, v)]
  | kv :: rest, k, v =>
    if kv.1 = k then (k, v) :: rest else kv :: mapInsert rest k v

/-- Map lookup (`BTreeMap::get`). -/
def mapLookup : List (Str × Str) → Str → Option Str
  | [], _ => none
  | kv :: rest, k => if kv.1 = k then some kv.2 else mapLookup rest k

/-! ### Numeric parsing (Rust `FromStr` for `u8`, `u32`, `i32`) -/

/-- Value of a decimal digit character, `none` for a non-digit. -/
def digitVal (c : Nat) : Option Nat :=
  if 48 ≤ c && c ≤ 57 then some (c - 48) else none

/-- Value of a non-empty all-digit string, `none` otherwise. -/
def parseDigits (s : Str) : Option Nat :=
  match s with
  | [] => none
  | _ =>
    s.foldl (fun acc c => acc.bind fun n => (digitVal c).map fun d => n * 10 + d)
      (some 0)

/-- Rust `<uN as FromStr>::from_str` with maximum value `max`: an optional
leading `+`, then a non-empty digit string, checked against the type's
range. -/
def rustParseUnsigned (max : Nat) (s : Str) : Option Nat :=
  let digits := match s with
    | 43 :: rest => rest
    | _ => s
  (parseDigits digits).bind fun n => if n ≤ max then some n else none

/-- Rust `<i32 as FromStr>::from_str`: optional sign, non-empty digit
string, checked against the `i32` range. -/
def rustParseI32 (s : Str) : Option Int :=
  match s with
  | 43 :: rest =>
    (parseDigits rest).bind fun n =>
      if n ≤ 2 ^ 31 - 1 then some (Int.ofNat n) else none
  | 45 :: rest =>
    (parseDigits rest).bind fun n =>
      if n ≤ 2 ^ 31 then some (-(Int.ofNat n)) else none
  | _ =>
    (parseDigits s).bind fun n =>
      if n ≤ 2 ^ 31 - 1 then some (Int.ofNat n) else none

/-- `u8::from_str`. -/
def parseU8 (s : Str) : Option Nat :=
  rustParseUnsigned 255 s

/-! ### Unit types (`src/units.rs`) -/

/-- `Watt(pub u32)`. -/
structure Watt where
  val : Nat
deriving DecidableEq, Repr

/-- `WattHours(pub u32)`. -/
structure WattHours where
  val : Nat
deriving DecidableEq, Repr

/-- `Celsius(pub i32)`. -/
structure Celsius where
  val : Int
deriving DecidableEq, Repr

/-- `Percentage(pub u8)`. -/
structure Percentage where
  val : Nat
deriving DecidableEq, Repr

/-- `FromStr` for `Watt`: delegate to `u32` parsing. -/
def Watt.fromStr (s : Str) : Option Watt :=
  (rustParseUnsigned (2 ^ 32 - 1) s).map Watt.mk

/-- `FromStr` for `WattHours`: delegate to `u32` parsing. -/
def WattHours.fromStr (s : Str) : Option WattHours :=
  (rustParseUnsigned (2 ^ 32 - 1) s).map WattHours.mk

/-- `FromStr` for `Celsius`: delegate to `i32` parsing. -/
def Celsius.fromStr (s : Str) : Option Celsius :=
  (rustParseI32 s).map Celsius.mk

/-- `FromStr` for `Percentage`: delegate to `u8` parsing. -/
def Percentage.fromStr (s : Str) : Option Percentage :=
  (parseU8 s).map Percentage.mk

/-! ### Scene -/

/-- Ambient-light scene (`enum Scene`). -/
inductive Scene where
  | Day
  | Night
  | Dusk
deriving DecidableEq, Repr

/-- `InvalidSceneError` (unit-like error struct). -/
inductive InvalidSceneError where
  | mk
deriving DecidableEq, Repr

/-- `impl FromStr for Scene`: `"0"` is `Day`, `"1"` is `Night`, `"2"` is
`Dusk`, everything else is `InvalidSceneError`. -/
def Scene.fromStr (s : Str) : Except InvalidSceneError Scene :=
  if s = str ("0") then .ok .Day
  else if s = str ("1") then .ok .Night
  else if s = str ("2") then .ok .Dusk
  else .error .mk

/-- `Scene` parsing as an `Option`, for use as a field parser (success
values coincide with `Scene.fromStr`). -/
def Scene.fromStrOpt (s : Str) : Option Scene :=
  (Scene.fromStr s).toOption

/-! ### Error types (`src/mqtt/mod.rs`)

`InvalidStatus::InvalidField` additionally boxes the underlying parse
error in the source; that inner error value is abstracted away here, only
the attributed field name is kept. -/

/-- `enum InvalidStatus`. -/
inductive InvalidStatus where
  | invalidFormat (bytes : List Nat)
  | invalidField (name : Str)
  | missingField (name : Str)
deriving DecidableEq, Repr

/-- `rumqttc::ClientError`, abstract. -/
inductive ClientError where
  | mk
deriving DecidableEq, Repr

/-- `enum Error` (`InvalidStatus` is converted via `#[from]`). -/
inductive Error where
  | invalidStatus (e : InvalidStatus)
  | mqttClientError (e : ClientError)
deriving DecidableEq, Repr

deriving instance DecidableEq for Except

/-! ### Status codec (`Message::parse`) -/

/-- `struct Message { payload: BTreeMap<String, String> }`. -/
structure Message where
  payload : List (Str × Str)
deriving DecidableEq, Repr

/-- The segment-consuming loop inside `Message::parse`: each comma
segment must split on `=`; a segment without `=` aborts the whole parse
with `InvalidFormat` carrying the original bytes. -/
def parseSegments (raw : List Nat) : List Str → List (Str × Str) → Except Error Message
  | [], acc => .ok ⟨acc⟩
  | part :: rest, acc =>
    match splitOnce 61 part with
    | none => .error (.invalidStatus (.invalidFormat raw))
    | some kv => parseSegments raw rest (mapInsert acc kv.1 kv.2)

/-- `Message::parse`: UTF-8 decode (else `InvalidFormat` with the
original bytes), trim, split on `,`, and fold the `key=value` segments
into the payload map. -/
def Message.parse (raw : List Nat) : Except Error Message :=
  match utf8Decode raw with
  | none => .error (.invalidStatus (.invalidFormat raw))
  | some msg => parseSegments raw (rustSplit 44 (rustTrim msg)) []

/-! ### Raw field decoding (`message!` macro / `RawDeviceInfo`) -/

/-- `Message::get_value::<T>(name)`: look the key up in the payload map
and parse it; `.error ()` stands for the underlying `T::Err` parse
error, `.ok none` for an absent key. -/
def Message.getValue (m : Message) (p : Str → Option α) (name : Str) :
    Except Unit (Option α) :=
  match mapLookup m.payload name with
  | none => .ok none
  | some v =>
    match p v with
    | none => .error ()
    | some a => .ok (some a)

/-- One field of the `message!`-generated `TryFrom<&Message>` body:
`message.get_value(field).map_err(|err| InvalidField(field, err))?
 .ok_or(MissingField(field))?`. -/
def Message.field (m : Message) (name : Str) (p : Str → Option α) :
    Except Error α :=
  match m.getValue p name with
  | .error _ => .error (.invalidStatus (.invalidField name))
  | .ok none => .error (.invalidStatus (.missingField name))
  | .ok (some a) => .ok a

/-- `struct RawDeviceInfo` as declared inside the `message!` macro
invocation; the Rust field `r#do` is called `do_` here because `do` is a
Lean keyword. -/
structure RawDeviceInfo where
  p1 : Nat
  p2 : Nat
  w1 : Watt
  w2 : Watt
  pe : Percentage
  o1 : Nat
  o2 : Nat
  do_ : Percentage
  lv : Watt
  cj : Scene
  kn : WattHours
  g1 : Watt
  g2 : Watt
  tl : Celsius
  th : Celsius
  l0 : Nat
deriving DecidableEq, Repr

/-- `impl TryFrom<&Message> for RawDeviceInfo` as generated by the
`message!` macro: each field is fetched and parsed in declaration order,
the first failure aborting the decode (`?`). -/
def RawDeviceInfo.tryFrom (m : Message) : Except Error RawDeviceInfo :=
  m.field (str ("p1")) parseU8 >>= fun p1 =>
  m.field (str ("p2")) parseU8 >>= fun p2 =>
  m.field (str ("w1")) Watt.fromStr >>= fun w1 =>
  m.field (str ("w2")) Watt.fromStr >>= fun w2 =>
  m.field (str ("pe")) Percentage.fromStr >>= fun pe =>
  m.field (str ("o1")) parseU8 >>= fun o1 =>
  m.field (str ("o2")) parseU8 >>= fun o2 =>
  m.field (str ("do")) Percentage.fromStr >>= fun do_ =>
  m.field (str ("lv")) Watt.fromStr >>= fun lv =>
  m.field (str ("cj")) Scene.fromStrOpt >>= fun cj =>
  m.field (str ("kn")) WattHours.fromStr >>= fun kn =>
  m.field (str ("g1")) Watt.fromStr >>= fun g1 =>
  m.field (str ("g2")) Watt.fromStr >>= fun g2 =>
  m.field (str ("tl")) Celsius.fromStr >>= fun tl =>
  m.field (str ("th")) Celsius.fromStr >>= fun th =>
  m.field (str ("l0")) parseU8 >>= fun l0 =>
  pure ⟨p1, p2, w1, w2, pe, o1, o2, do_, lv, cj, kn, g1, g2, tl, th, l0⟩

/-! ### Domain model (`DeviceInfo` and friends) -/

/-- `struct SolarInfo`. -/
structure SolarInfo where
  charging : Bool
  pass_through : Bool
  power : Watt
deriving DecidableEq, Repr

/-- `struct OutputInfo`. -/
structure OutputInfo where
  power : Watt
  active : Bool
deriving DecidableEq, Repr

/-- `struct TemperatureInfo`. -/
structure TemperatureInfo where
  min : Celsius
  max : Celsius
deriving DecidableEq, Repr

/-- `struct BatteryCellInfo`. -/
structure BatteryCellInfo where
  charging : Bool
  discharging : Bool
  discharge_depth : Bool
  undervoltage : Bool
deriving DecidableEq, Repr

/-- `struct BatteryInfo`. -/
structure BatteryInfo where
  charge : Percentage
  capacity : WattHours
  output_threshold : Watt
  discharge_depth : Percentage
  internal : BatteryCellInfo
deriving DecidableEq, Repr

/-- `struct DeviceInfo`; the capture time (`SystemTime`) is modelled as a
`Nat`. -/
structure DeviceInfo where
  timestamp : Nat
  solar1 : SolarInfo
  solar2 : SolarInfo
  output1 : OutputInfo
  output2 : OutputInfo
  temperature : TemperatureInfo
  battery : BatteryInfo
  scene : Scene
deriving DecidableEq, Repr

/-- The `bit!` macro in `impl From<&Measurement<RawDeviceInfo>> for
DeviceInfo`: `($value >> $bit) & 0b01 == 1`. -/
def bitAt (value : Nat) (n : Nat) : Bool :=
  (value >>> n) &&& 1 == 1

/-- The pure core of `impl From<&Measurement<RawDeviceInfo>> for
DeviceInfo`, applied once `value.data` is known to be present. -/
def DeviceInfo.ofRaw (timestamp : Nat) (value : RawDeviceInfo) : DeviceInfo where
  timestamp := timestamp
  solar1 := { charging := bitAt value.p1 0, pass_through := bitAt value.p1 1, power := value.w1 }
  solar2 := { charging := bitAt value.p2 0, pass_through := bitAt value.p2 1, power := value.w2 }
  output1 := { power := value.g1, active := bitAt value.o1 0 }
  output2 := { power := value.g2, active := bitAt value.o2 0 }
  temperature := { min := value.tl, max := value.th }
  battery :=
    { charge := value.pe
      capacity := value.kn
      output_threshold := value.lv
      discharge_depth := value.do_
      internal :=
        { charging := bitAt value.l0 0
          discharging := bitAt value.l0 1
          discharge_depth := bitAt value.l0 2
          undervoltage := bitAt value.l0 3 } }
  scene := value.cj

/-- The decode pipeline as run by the event loop on an incoming publish:
`Message::parse` followed by `RawDeviceInfo::try_from`. -/
def decodePipeline (raw : List Nat) : Except Error RawDeviceInfo :=
  Message.parse raw >>= fun m => RawDeviceInfo.tryFrom m

/-- The literal status payload of the round-trip scenario. -/
def payloadC1 : List Nat :=
  str ("p1=1,p2=1,w1=23,w2=23,pe=99,o1=1,o2=1,do=80,lv=200,cj=2,kn=2217,g1=1,g2=0,tl=27,th=27,l0=1")

/-! ### Device session (`Device`) and topics (`DeviceOptions`) -/

/-- `struct DeviceOptions { ty, mac }`: the immutable device identity. -/
structure DeviceOptions where
  ty : String
  mac : String
deriving DecidableEq, Repr

/-- `DeviceOptions::data_topic`:
`format!("hame_energy/{}/device/{}/ctrl", self.ty, self.mac)`. -/
def DeviceOptions.data_topic (o : DeviceOptions) : String :=
  "hame_energy/" ++ o.ty ++ "/device/" ++ o.mac ++ "/ctrl"

/-- `DeviceOptions::control_topic`:
`format!("hame_energy/{}/App/{}/ctrl", self.ty, self.mac)`. -/
def DeviceOptions.control_topic (o : DeviceOptions) : String :=
  "hame_energy/" ++ o.ty ++ "/App/" ++ o.mac ++ "/ctrl"

/-- `rumqttc::QoS`. -/
inductive QoS where
  | atMostOnce
  | atLeastOnce
  | exactlyOnce
deriving DecidableEq, Repr

/-- The arguments of one `AsyncClient::publish` call. -/
structure PublishRequest where
  topic : String
  qos : QoS
  retain : Bool
  payload : String
deriving DecidableEq, Repr

/-- The publish issued by `Device::device_info`:
`client.publish(control_topic(), QoS::AtLeastOnce, false, "cd=1")`. -/
def Device.refreshPublish (o : DeviceOptions) : PublishRequest where
  topic := o.control_topic
  qos := .atLeastOnce
  retain := false
  payload := "cd=1"

/-- `struct Measurement<T> { time: SystemTime, data: Option<T> }`. -/
structure Measurement (α : Type) where
  time : Nat
  data : Option α
deriving DecidableEq, Repr

/-- `impl Default for Measurement<T>`: `UNIX_EPOCH` (time 0) and no
data; this is the initial content of the watch channel. -/
def Measurement.default : Measurement α :=
  ⟨0, none⟩

/-- The state `Device::device_info` runs against: the outcome of the
`publish` call, whether the watch channel was already closed when
`device_info.changed()` was awaited (sender dropped, i.e. the event loop
has exited), and the snapshot slot content observed by
`borrow_and_update()` after that await. -/
structure SessionState where
  publishError : Option ClientError
  channelClosed : Bool
  slot : Measurement RawDeviceInfo
deriving DecidableEq, Repr

/-- Outcome of a session operation: a returned value, a returned error,
or a Rust panic. -/
inductive Outcome (α : Type) where
  | ok (a : α)
  | err (e : Error)
  | panic
deriving DecidableEq, Repr

/-- `Device::device_info`: propagate a publish failure (`?`); then await
`self.device_info.changed()` *discarding its result* (`let _ = ...`, so a
closed channel is not surfaced), and convert the borrowed measurement via
`DeviceInfo::from`, whose `value.data.as_ref().expect("valid
measurement")` panics when the slot still holds the default (no snapshot
ever received). -/
def Device.deviceInfo (s : SessionState) : Outcome DeviceInfo :=
  match s.publishError with
  | some e => .err (.mqttClientError e)
  | none =>
    match s.slot.data with
    | none => .panic
    | some raw => .ok (DeviceInfo.ofRaw s.slot.time raw)

/-! ### Event loop (`DeviceLoop::run`) -/

/-- The events `EventLoop::poll` can yield, classified exactly as the
`match` in `DeviceLoop::run` distinguishes them. `connErrorAborted` is
`ConnectionError::MqttState(StateError::Io(_))` with
`ErrorKind::ConnectionAborted`; `connErrorOther` is any other
`ConnectionError`. -/
inductive MqttEvent where
  | incomingPublish (payload : List Nat)
  | incomingOther
  | outgoingDisconnect
  | outgoingOther
  | connErrorAborted
  | connErrorOther
deriving DecidableEq, Repr

/-- The mutable state of `DeviceLoop::run`: the `disconnect` flag, whether
the watch channel still has a receiver (`send` succeeds), and the
latest-snapshot slot held by the watch sender. -/
structure LoopState where
  disconnect : Bool
  receiverPresent : Bool
  slot : Measurement RawDeviceInfo
deriving DecidableEq, Repr

/-- Result of one iteration of the `loop` in `DeviceLoop::run`: keep
polling with a new state, return `Ok(())`, or panic. -/
inductive StepResult where
  | next (s : LoopState)
  | exitOk
  | panic
deriving DecidableEq, Repr

/-- One iteration of `DeviceLoop::run` on the event `e`, at current time
`now`:
* incoming publish: decode the payload (`Message::parse(..).unwrap()` and
  `RawDeviceInfo::try_from(..).unwrap()` panic on failure), then `send` the
  new measurement — if the receiver is gone, exit with `Ok(())`;
* other incoming packets and other outgoing notifications: log only;
* outgoing disconnect: set the `disconnect` flag;
* a `ConnectionAborted` I/O connection error with `disconnect` set:
  return `Ok(())` (clean shutdown);
* any other connection error: log and continue polling. -/
def DeviceLoop.step (now : Nat) (s : LoopState) : MqttEvent → StepResult
  | .incomingPublish payload =>
    match decodePipeline payload with
    | .error _ => .panic
    | .ok raw =>
      if s.receiverPresent then
        .next { s with slot := ⟨now, some raw⟩ }
      else
        .exitOk
  | .incomingOther => .next s
  | .outgoingDisconnect => .next { s with disconnect := true }
  | .outgoingOther => .next s
  | .connErrorAborted => if s.disconnect then .exitOk else .next s
  | .connErrorOther => .next s

/-! ### Spec-side reference definitions

The following definitions are written from the specification's words (not
from the source); the theorems below compare the source-derived functions
against them. -/

/-- Modelled from the spec: the key of a `key=value` segment is the text
before its `=`. -/
def spec_segKey (seg : Str) : Str :=
  seg.takeWhile (fun c => c != 61)

/-- Modelled from the spec: the value of a `key=value` segment is the
literal text after its (first) `=`. -/
def spec_segValue (seg : Str) : Str :=
  (seg.dropWhile (fun c => c != 61)).drop 1

/-- Modelled from the spec: the value associated with key `k` by the
segments, the last occurrence of a duplicate key winning. -/
def spec_lastValue (k : Str) : List Str → Option Str
  | [] => none
  | seg :: rest =>
    match spec_lastValue k rest with
    | some v => some v
    | none => if spec_segKey seg = k then some (spec_segValue seg) else none

/-- Check of a single required field of a record decode, modelled from
the spec: a missing key is `MissingField(name)`, a present but
unparseable value is `InvalidField(name)`, otherwise no error. -/
def fieldCheck (m : Message) (name : Str) (ok : Str → Bool) :
    Option InvalidStatus :=
  match mapLookup m.payload name with
  | none => some (.missingField name)
  | some v => if ok v then none else some (.invalidField name)

/-- The first of two options, unless it is `none`. -/
def firstSome {a : Type} (x y : Option a) : Option a :=
  match x with
  | some e => some e
  | none => y

/-- Modelled from the spec: the error attributed to the first failing
field of a device-info record decode, checking the required fields in
their fixed declaration order; `none` when every field is present and
parseable. -/
def spec_firstFieldError (m : Message) : Option InvalidStatus :=
  firstSome (fieldCheck m (str ("p1")) (fun v => (parseU8 v).isSome)) <|
  firstSome (fieldCheck m (str ("p2")) (fun v => (parseU8 v).isSome)) <|
  firstSome (fieldCheck m (str ("w1")) (fun v => (Watt.fromStr v).isSome)) <|
  firstSome (fieldCheck m (str ("w2")) (fun v => (Watt.fromStr v).isSome)) <|
  firstSome (fieldCheck m (str ("pe")) (fun v => (Percentage.fromStr v).isSome)) <|
  firstSome (fieldCheck m (str ("o1")) (fun v => (parseU8 v).isSome)) <|
  firstSome (fieldCheck m (str ("o2")) (fun v => (parseU8 v).isSome)) <|
  firstSome (fieldCheck m (str ("do")) (fun v => (Percentage.fromStr v).isSome)) <|
  firstSome (fieldCheck m (str ("lv")) (fun v => (Watt.fromStr v).isSome)) <|
  firstSome (fieldCheck m (str ("cj")) (fun v => (Scene.fromStrOpt v).isSome)) <|
  firstSome (fieldCheck m (str ("kn")) (fun v => (WattHours.fromStr v).isSome)) <|
  firstSome (fieldCheck m (str ("g1")) (fun v => (Watt.fromStr v).isSome)) <|
  firstSome (fieldCheck m (str ("g2")) (fun v => (Watt.fromStr v).isSome)) <|
  firstSome (fieldCheck m (str ("tl")) (fun v => (Celsius.fromStr v).isSome)) <|
  firstSome (fieldCheck m (str ("th")) (fun v => (Celsius.fromStr v).isSome)) <|
  firstSome (fieldCheck m (str ("l0")) (fun v => (parseU8 v).isSome)) <|
  none

/-- The 16 protocol keys required by the device-info record. -/
def requiredDeviceInfoKeys : List Str :=
  [str ("p1"), str ("p2"), str ("w1"), str ("w2"), str ("pe"), str ("o1"),
   str ("o2"), str ("do"), str ("lv"), str ("cj"), str ("kn"), str ("g1"),
   str ("g2"), str ("tl"), str ("th"), str ("l0")]

/-! ### Lemmas about the codec -/

theorem splitOnce_eq_none_of_not_mem (sep : Nat) (part : Str)
    (h : sep ∉ part) : splitOnce sep part = none := by
  induction part with
  | nil => rfl
  | cons c rest ih =>
    have hc : ¬ c = sep := fun hcs => h (hcs ▸ List.mem_cons_self c rest)
    simp [splitOnce, hc, ih fun hr => h (List.mem_cons_of_mem c hr)]

theorem splitOnce_eq_spec (part : Str) (h : (61 : Nat) ∈ part) :
    splitOnce 61 part = some (spec_segKey part, spec_segValue part) := by
  induction part with
  | nil => cases h
  | cons c rest ih =>
    by_cases hc : c = 61
    · subst hc
      simp [splitOnce, spec_segKey, spec_segValue]
    · have hr : (61 : Nat) ∈ rest := by
        cases List.mem_cons.mp h with
        | inl h => exact absurd h.symm hc
        | inr h => exact h
      simp [splitOnce, hc, ih hr, spec_segKey, spec_segValue,
        List.takeWhile_cons, List.dropWhile_cons]

theorem mapLookup_mapInsert (m : List (Str × Str)) (k v k' : Str) :
    mapLookup (mapInsert m k v) k' =
      if k = k' then some v else mapLookup m k' := by
  induction m with
  | nil => by_cases h : k = k' <;> simp [mapInsert, mapLookup, h]
  | cons kv rest ih =>
    by_cases h1 : kv.1 = k
    · by_cases h2 : k = k'
      · simp [mapInsert, mapLookup, h1, h2]
      · have hkv : ¬ kv.1 = k' := fun he => h2 (h1.symm.trans he)
        simp [mapInsert, mapLookup, h1, h2, hkv]
    · by_cases h2 : kv.1 = k'
      · have hk : ¬ k = k' := fun he => h1 (h2.trans he.symm)
        have hk2 : ¬ k' = k := fun he => hk he.symm
        simp [mapInsert, mapLookup, h1, h2, hk, hk2]
      · simp [mapInsert, mapLookup, h1, h2, ih]

theorem spec_lastValue_eq_none_iff (k : Str) (segs : List Str) :
    spec_lastValue k segs = none ↔ k ∉ segs.map spec_segKey := by
  induction segs with
  | nil => simp [spec_lastValue]
  | cons seg rest ih =>
    cases h : spec_lastValue k rest with
    | some v =>
      have hmem : k ∈ rest.map spec_segKey := by
        have hne := mt ih.mpr (by simp [h])
        exact not_not.mp hne
      simp [spec_lastValue, h, hmem]
    | none =>
      by_cases hks : spec_segKey seg = k
      · simp [spec_lastValue, h, hks]
      · have hne : ¬ k = spec_segKey seg := fun he => hks he.symm
        simp [spec_lastValue, h, hks, hne, ih.mp h]

theorem parseSegments_ok (raw : List Nat) (parts : List Str) :
    (∀ p ∈ parts, (61 : Nat) ∈ p) → ∀ acc,
      ∃ pl, parseSegments raw parts acc = .ok ⟨pl⟩ ∧
        ∀ k, mapLookup pl k =
          match spec_lastValue k parts with
          | some v => some v
          | none => mapLookup acc k := by
  induction parts with
  | nil =>
    intro _ acc
    exact ⟨acc, rfl, fun k => by simp [spec_lastValue]⟩
  | cons part rest ih =>
    intro h acc
    have hp : (61 : Nat) ∈ part := h part (List.mem_cons_self _ _)
    have hrest : ∀ p ∈ rest, (61 : Nat) ∈ p :=
      fun p hpr => h p (List.mem_cons_of_mem _ hpr)
    obtain ⟨pl, hok, hlook⟩ :=
      ih hrest (mapInsert acc (spec_segKey part) (spec_segValue part))
    refine ⟨pl, ?_, ?_⟩
    · simp [parseSegments, splitOnce_eq_spec part hp, hok]
    · intro k
      rw [hlook k]
      cases hlv : spec_lastValue k rest with
      | some v => simp [spec_lastValue, hlv]
      | none =>
        by_cases hk : spec_segKey part = k <;>
          simp [spec_lastValue, hlv, mapLookup_mapInsert, hk]

theorem parseSegments_error_of_missing_eq (raw : List Nat) (parts : List Str) :
    (∃ p ∈ parts, (61 : Nat) ∉ p) → ∀ acc,
      parseSegments raw parts acc =
        .error (.invalidStatus (.invalidFormat raw)) := by
  induction parts with
  | nil =>
    intro h acc
    obtain ⟨p, hp, _⟩ := h
    cases hp
  | cons part rest ih =>
    intro h acc
    by_cases hp : (61 : Nat) ∈ part
    · obtain ⟨q, hq, hqe⟩ := h
      have hqr : q ∈ rest := by
        cases List.mem_cons.mp hq with
        | inl he => exact absurd (he.symm ▸ hp) hqe
        | inr hr => exact hr
      simp [parseSegments, splitOnce_eq_spec part hp]
      exact ih ⟨q, hqr, hqe⟩ _
    · simp [parseSegments, splitOnce_eq_none_of_not_mem 61 part hp]

theorem parseSegments_error_shape (raw : List Nat) (parts : List Str) :
    ∀ acc e, parseSegments raw parts acc = .error e →
      e = .invalidStatus (.invalidFormat raw) := by
  induction parts with
  | nil =>
    intro acc e h
    simp [parseSegments] at h
  | cons part rest ih =>
    intro acc e h
    unfold parseSegments at h
    cases hs : splitOnce 61 part with
    | none =>
      rw [hs] at h
      injection h with h
      exact h.symm
    | some kv =>
      rw [hs] at h
      exact ih _ e h

/-! ### Record decode versus the spec's first-failing-field account -/

/-- A record decode agrees with a spec-side first-error computation: no
predicted error means success, a predicted error is exactly the decode's
error. -/
def decodeAgrees {b : Type} (dec : Except Error b) (sp : Option InvalidStatus) : Prop :=
  (sp = none → ∃ r, dec = .ok r) ∧
  ∀ e, sp = some e → dec = .error (.invalidStatus e)

theorem decodeAgrees_pure {b : Type} (r : b) :
    decodeAgrees (pure r) none :=
  ⟨fun _ => ⟨r, rfl⟩, fun _ he => by cases he⟩

theorem decodeAgrees_step {a b : Type} (m : Message) (n : Str)
    (p : Str → Option a) (k : a → Except Error b) (sp : Option InvalidStatus)
    (h : ∀ x, decodeAgrees (k x) sp) :
    decodeAgrees (m.field n p >>= k)
      (firstSome (fieldCheck m n fun v => (p v).isSome) sp) := by
  cases hl : mapLookup m.payload n with
  | none =>
    have hf : m.field n p = .error (.invalidStatus (.missingField n)) := by
      simp [Message.field, Message.getValue, hl]
    have hc : fieldCheck m n (fun v => (p v).isSome) = some (.missingField n) := by
      simp [fieldCheck, hl]
    constructor
    · intro hnone
      rw [hc] at hnone
      simp [firstSome] at hnone
    · intro e he
      rw [hc] at he
      simp [firstSome] at he
      subst he
      calc m.field n p >>= k
          = Except.error (.invalidStatus (.missingField n)) >>= k := by rw [hf]
        _ = .error (.invalidStatus (.missingField n)) := rfl
  | some v =>
    cases hp : p v with
    | none =>
      have hf : m.field n p = .error (.invalidStatus (.invalidField n)) := by
        simp [Message.field, Message.getValue, hl, hp]
      have hc : fieldCheck m n (fun v => (p v).isSome) = some (.invalidField n) := by
        simp [fieldCheck, hl, hp]
      constructor
      · intro hnone
        rw [hc] at hnone
        simp [firstSome] at hnone
      · intro e he
        rw [hc] at he
        simp [firstSome] at he
        subst he
        calc m.field n p >>= k
            = Except.error (.invalidStatus (.invalidField n)) >>= k := by rw [hf]
          _ = .error (.invalidStatus (.invalidField n)) := rfl
    | some x =>
      have hf : m.field n p = .ok x := by
        simp [Message.field, Message.getValue, hl, hp]
      have hc : fieldCheck m n (fun v => (p v).isSome) = none := by
        simp [fieldCheck, hl, hp]
      have hbind : m.field n p >>= k = k x := by rw [hf]; rfl
      rw [hbind, hc]
      exact h x

theorem tryFrom_agrees (m : Message) :
    decodeAgrees (RawDeviceInfo.tryFrom m) (spec_firstFieldError m) := by
  unfold RawDeviceInfo.tryFrom spec_firstFieldError
  refine decodeAgrees_step m _ _ _ _ fun p1 => ?_
  refine decodeAgrees_step m _ _ _ _ fun p2 => ?_
  refine decodeAgrees_step m _ _ _ _ fun w1 => ?_
  refine decodeAgrees_step m _ _ _ _ fun w2 => ?_
  refine decodeAgrees_step m _ _ _ _ fun pe => ?_
  refine decodeAgrees_step m _ _ _ _ fun o1 => ?_
  refine decodeAgrees_step m _ _ _ _ fun o2 => ?_
  refine decodeAgrees_step m _ _ _ _ fun do_ => ?_
  refine decodeAgrees_step m _ _ _ _ fun lv => ?_
  refine decodeAgrees_step m _ _ _ _ fun cj => ?_
  refine decodeAgrees_step m _ _ _ _ fun kn => ?_
  refine decodeAgrees_step m _ _ _ _ fun g1 => ?_
  refine decodeAgrees_step m _ _ _ _ fun g2 => ?_
  refine decodeAgrees_step m _ _ _ _ fun tl => ?_
  refine decodeAgrees_step m _ _ _ _ fun th => ?_
  refine decodeAgrees_step m _ _ _ _ fun l0 => ?_
  exact decodeAgrees_pure _

/-! ### The decode depends only on the required keys -/

theorem Message.field_congr {a : Type} (m₁ m₂ : Message) (n : Str)
    (p : Str → Option a)
    (h : mapLookup m₁.payload n = mapLookup m₂.payload n) :
    m₁.field n p = m₂.field n p := by
  unfold Message.field Message.getValue
  rw [h]

theorem tryFrom_congr (m₁ m₂ : Message)
    (h : ∀ n ∈ requiredDeviceInfoKeys,
      mapLookup m₁.payload n = mapLookup m₂.payload n) :
    RawDeviceInfo.tryFrom m₁ = RawDeviceInfo.tryFrom m₂ := by
  have e01 := Message.field_congr m₁ m₂ (str ("p1")) parseU8 (h _ (by decide))
  have e02 := Message.field_congr m₁ m₂ (str ("p2")) parseU8 (h _ (by decide))
  have e03 := Message.field_congr m₁ m₂ (str ("w1")) Watt.fromStr (h _ (by decide))
  have e04 := Message.field_congr m₁ m₂ (str ("w2")) Watt.fromStr (h _ (by decide))
  have e05 := Message.field_congr m₁ m₂ (str ("pe")) Percentage.fromStr (h _ (by decide))
  have e06 := Message.field_congr m₁ m₂ (str ("o1")) parseU8 (h _ (by decide))
  have e07 := Message.field_congr m₁ m₂ (str ("o2")) parseU8 (h _ (by decide))
  have e08 := Message.field_congr m₁ m₂ (str ("do")) Percentage.fromStr (h _ (by decide))
  have e09 := Message.field_congr m₁ m₂ (str ("lv")) Watt.fromStr (h _ (by decide))
  have e10 := Message.field_congr m₁ m₂ (str ("cj")) Scene.fromStrOpt (h _ (by decide))
  have e11 := Message.field_congr m₁ m₂ (str ("kn")) WattHours.fromStr (h _ (by decide))
  have e12 := Message.field_congr m₁ m₂ (str ("g1")) Watt.fromStr (h _ (by decide))
  have e13 := Message.field_congr m₁ m₂ (str ("g2")) Watt.fromStr (h _ (by decide))
  have e14 := Message.field_congr m₁ m₂ (str ("tl")) Celsius.fromStr (h _ (by decide))
  have e15 := Message.field_congr m₁ m₂ (str ("th")) Celsius.fromStr (h _ (by decide))
  have e16 := Message.field_congr m₁ m₂ (str ("l0")) parseU8 (h _ (by decide))
  unfold RawDeviceInfo.tryFrom
  simp only [e01, e02, e03, e04, e05, e06, e07, e08, e09, e10, e11, e12,
    e13, e14, e15, e16]

theorem mapLookup_foldl_mapInsert (extras : List (Str × Str)) :
    ∀ pl n, (∀ kv ∈ extras, kv.1 ≠ n) →
      mapLookup (extras.foldl (fun p kv => mapInsert p kv.1 kv.2) pl) n =
        mapLookup pl n := by
  induction extras with
  | nil =>
    intro pl n _
    rfl
  | cons kv rest ih =>
    intro pl n h
    have h1 : kv.1 ≠ n := h kv (List.mem_cons_self _ _)
    simp only [List.foldl_cons]
    rw [ih _ n (fun x hx => h x (List.mem_cons_of_mem _ hx))]
    rw [mapLookup_mapInsert]
    simp [h1]

/-! ### Claim theorems -/

/-- The raw record decoded from `payloadC1`. -/
def rawC1 : RawDeviceInfo :=
  ⟨1, 1, ⟨23⟩, ⟨23⟩, ⟨99⟩, 1, 1, ⟨80⟩, ⟨200⟩, .Dusk, ⟨2217⟩, ⟨1⟩, ⟨0⟩, ⟨27⟩, ⟨27⟩, 1⟩

/-- C1, counterexample: the claim asserts `solar1.pass_through = true` for
the round-trip payload, but `p1 = 1` has bit 1 clear, so the transform
yields `solar1.pass_through = false`. -/
theorem claim_C1_counterexample :
    ¬ (decodePipeline payloadC1).map
        (fun r => (DeviceInfo.ofRaw 0 r).solar1.pass_through) = .ok true := by
  decide

/-- C1, amended (solar1.pass_through is `false`, not `true`): on the
literal payload
`p1=1,p2=1,w1=23,w2=23,pe=99,o1=1,o2=1,do=80,lv=200,cj=2,kn=2217,g1=1,g2=0,tl=27,th=27,l0=1`
the status codec and the raw field decode succeed, and (for any capture
time `t`) the domain transform produces a snapshot with
solar1.charging = true, solar1.pass_through = false, solar1.power = 23 W,
output1.active = true, output1.power = 1 W, battery.charge = 99 %,
battery.discharge_depth = 80 %, battery.output_threshold = 200 W,
battery.capacity = 2217 Wh, scene = Dusk, temperature 27–27 °C, and
battery-internal flags charging = true, discharging = false,
discharge_depth = false, undervoltage = false. -/
theorem claim_C1_roundtrip (t : Nat) :
    ∃ r, decodePipeline payloadC1 = .ok r ∧
      (DeviceInfo.ofRaw t r).solar1.charging = true ∧
      (DeviceInfo.ofRaw t r).solar1.pass_through = false ∧
      (DeviceInfo.ofRaw t r).solar1.power = Watt.mk 23 ∧
      (DeviceInfo.ofRaw t r).output1.active = true ∧
      (DeviceInfo.ofRaw t r).output1.power = Watt.mk 1 ∧
      (DeviceInfo.ofRaw t r).battery.charge = Percentage.mk 99 ∧
      (DeviceInfo.ofRaw t r).battery.discharge_depth = Percentage.mk 80 ∧
      (DeviceInfo.ofRaw t r).battery.output_threshold = Watt.mk 200 ∧
      (DeviceInfo.ofRaw t r).battery.capacity = WattHours.mk 2217 ∧
      (DeviceInfo.ofRaw t r).scene = Scene.Dusk ∧
      (DeviceInfo.ofRaw t r).temperature.min = Celsius.mk 27 ∧
      (DeviceInfo.ofRaw t r).temperature.max = Celsius.mk 27 ∧
      (DeviceInfo.ofRaw t r).battery.internal.charging = true ∧
      (DeviceInfo.ofRaw t r).battery.internal.discharging = false ∧
      (DeviceInfo.ofRaw t r).battery.internal.discharge_depth = false ∧
      (DeviceInfo.ofRaw t r).battery.internal.undervoltage = false :=
  ⟨rawC1, by decide, rfl, rfl, rfl, rfl, rfl, rfl, rfl, rfl, rfl, rfl, rfl,
    rfl, rfl, rfl, rfl, rfl⟩

/-- C2: for every payload that is valid text whose comma segments each
contain a `=`, the codec succeeds and returns a mapping whose value for
each key is the literal text after that key's `=` with the last
occurrence of a duplicate key winning, and whose key set is exactly the
set of segment keys. -/
theorem claim_C2_codec_mapping (raw : List Nat) (msg : Str)
    (hdec : utf8Decode raw = some msg)
    (hseg : ∀ part ∈ rustSplit 44 (rustTrim msg), (61 : Nat) ∈ part) :
    ∃ m : Message, Message.parse raw = .ok m ∧
      (∀ k, mapLookup m.payload k =
        spec_lastValue k (rustSplit 44 (rustTrim msg))) ∧
      (∀ k, (mapLookup m.payload k).isSome = true ↔
        k ∈ (rustSplit 44 (rustTrim msg)).map spec_segKey) := by
  obtain ⟨pl, hok, hlook⟩ :=
    parseSegments_ok raw (rustSplit 44 (rustTrim msg)) hseg []
  have hlv : ∀ k, mapLookup pl k =
      spec_lastValue k (rustSplit 44 (rustTrim msg)) := by
    intro k
    rw [hlook k]
    cases h : spec_lastValue k (rustSplit 44 (rustTrim msg)) <;>
      simp [mapLookup]
  refine ⟨⟨pl⟩, ?_, hlv, ?_⟩
  · unfold Message.parse
    rw [hdec]
    exact hok
  · intro k
    rw [hlv k]
    constructor
    · intro hs
      by_contra hmem
      rw [← spec_lastValue_eq_none_iff] at hmem
      rw [hmem] at hs
      simp at hs
    · intro hmem
      cases h : spec_lastValue k (rustSplit 44 (rustTrim msg)) with
      | none => exact absurd hmem ((spec_lastValue_eq_none_iff k _).mp h)
      | some v => simp

theorem claim_C2_witness :
    ∃ m : Message, Message.parse (str ("a=1,b=2,a=3")) = .ok m ∧
      (∀ k, mapLookup m.payload k =
        spec_lastValue k (rustSplit 44 (rustTrim (str ("a=1,b=2,a=3"))))) ∧
      (∀ k, (mapLookup m.payload k).isSome = true ↔
        k ∈ (rustSplit 44 (rustTrim (str ("a=1,b=2,a=3")))).map spec_segKey) :=
  claim_C2_codec_mapping (str ("a=1,b=2,a=3")) (str ("a=1,b=2,a=3"))
    (by decide) (by decide)

/-- C3: a payload that is not valid text, or whose comma segments include
one without `=`, makes the codec fail with `InvalidFormat` carrying the
original bytes; moreover every codec failure is that very error, so no
partial mapping is ever returned. -/
theorem claim_C3_codec_failure (raw : List Nat) :
    (utf8Decode raw = none →
      Message.parse raw = .error (.invalidStatus (.invalidFormat raw))) ∧
    (∀ msg, utf8Decode raw = some msg →
      (∃ part ∈ rustSplit 44 (rustTrim msg), (61 : Nat) ∉ part) →
      Message.parse raw = .error (.invalidStatus (.invalidFormat raw))) ∧
    (∀ e, Message.parse raw = .error e →
      e = .invalidStatus (.invalidFormat raw)) := by
  refine ⟨?_, ?_, ?_⟩
  · intro h
    unfold Message.parse
    rw [h]
  · intro msg hdec hex
    unfold Message.parse
    rw [hdec]
    exact parseSegments_error_of_missing_eq raw _ hex []
  · intro e h
    unfold Message.parse at h
    cases hdec : utf8Decode raw with
    | none =>
      rw [hdec] at h
      injection h with h
      exact h.symm
    | some msg =>
      rw [hdec] at h
      exact parseSegments_error_shape raw _ [] e h

theorem claim_C3_witness :
    Message.parse [255] =
      .error (.invalidStatus (.invalidFormat [255])) ∧
    Message.parse (str ("a=1,b")) =
      .error (.invalidStatus (.invalidFormat (str ("a=1,b")))) :=
  ⟨(claim_C3_codec_failure [255]).1 (by decide),
    (claim_C3_codec_failure (str ("a=1,b"))).2.1 (str ("a=1,b")) (by decide)
      (by decide)⟩

/-- C4: the device-info record decode checks its fields in the fixed
declaration order and agrees with the spec-side first-failing-field
account: if no field is missing or unparseable the decode succeeds, and
otherwise it fails with exactly the error attributed to the first failing
field (`MissingField` for an absent key, `InvalidField` for a present but
unparseable value); no partial record is ever produced. -/
theorem claim_C4_field_attribution (m : Message) :
    (spec_firstFieldError m = none → ∃ r, RawDeviceInfo.tryFrom m = .ok r) ∧
    ∀ e, spec_firstFieldError m = some e →
      RawDeviceInfo.tryFrom m = .error (.invalidStatus e) :=
  tryFrom_agrees m

theorem claim_C4_witness :
    RawDeviceInfo.tryFrom ⟨[]⟩ =
      .error (.invalidStatus (.missingField (str ("p1")))) :=
  (claim_C4_field_attribution ⟨[]⟩).2 _ (by decide)

/-- C5: the domain transform extracts every status flag as
`(byte >> n) & 1 == 1` and interprets no other bits: bit 0 is the
primary flag and bit 1 the secondary flag of the two-bit status bytes,
and bits 0–3 of the battery-cell byte `l0` map respectively to charging,
discharging, discharge-depth and undervoltage; the transform is a pure
function, so byte `0b01` gives primary true / secondary false, `0b10`
gives primary false / secondary true, and `0b11` gives both true. -/
theorem claim_C5_bitfield_transform (t : Nat) (r : RawDeviceInfo) :
    (DeviceInfo.ofRaw t r).solar1.charging = ((r.p1 >>> 0) &&& 1 == 1) ∧
    (DeviceInfo.ofRaw t r).solar1.pass_through = ((r.p1 >>> 1) &&& 1 == 1) ∧
    (DeviceInfo.ofRaw t r).solar2.charging = ((r.p2 >>> 0) &&& 1 == 1) ∧
    (DeviceInfo.ofRaw t r).solar2.pass_through = ((r.p2 >>> 1) &&& 1 == 1) ∧
    (DeviceInfo.ofRaw t r).output1.active = ((r.o1 >>> 0) &&& 1 == 1) ∧
    (DeviceInfo.ofRaw t r).output2.active = ((r.o2 >>> 0) &&& 1 == 1) ∧
    (DeviceInfo.ofRaw t r).battery.internal.charging = ((r.l0 >>> 0) &&& 1 == 1) ∧
    (DeviceInfo.ofRaw t r).battery.internal.discharging = ((r.l0 >>> 1) &&& 1 == 1) ∧
    (DeviceInfo.ofRaw t r).battery.internal.discharge_depth = ((r.l0 >>> 2) &&& 1 == 1) ∧
    (DeviceInfo.ofRaw t r).battery.internal.undervoltage = ((r.l0 >>> 3) &&& 1 == 1) ∧
    (DeviceInfo.ofRaw t { r with p1 := 1 }).solar1.charging = true ∧
    (DeviceInfo.ofRaw t { r with p1 := 1 }).solar1.pass_through = false ∧
    (DeviceInfo.ofRaw t { r with p1 := 2 }).solar1.charging = false ∧
    (DeviceInfo.ofRaw t { r with p1 := 2 }).solar1.pass_through = true ∧
    (DeviceInfo.ofRaw t { r with p1 := 3 }).solar1.charging = true ∧
    (DeviceInfo.ofRaw t { r with p1 := 3 }).solar1.pass_through = true := by
  refine ⟨rfl, rfl, rfl, rfl, rfl, rfl, rfl, rfl, rfl, rfl,
    ?_, ?_, ?_, ?_, ?_, ?_⟩ <;> simp [DeviceInfo.ofRaw, bitAt]

/-- C6: `Scene` parsing maps exactly `"0"` to `Day`, `"1"` to `Night` and
`"2"` to `Dusk`, and fails with `InvalidSceneError` on every other
string. -/
theorem claim_C6_scene_codes :
    Scene.fromStr (str ("0")) = .ok .Day ∧
    Scene.fromStr (str ("1")) = .ok .Night ∧
    Scene.fromStr (str ("2")) = .ok .Dusk ∧
    ∀ s : Str, s ≠ str ("0") → s ≠ str ("1") → s ≠ str ("2") →
      Scene.fromStr s = .error .mk := by
  refine ⟨by decide, by decide, by decide, ?_⟩
  intro s h0 h1 h2
  unfold Scene.fromStr
  simp [h0, h1, h2]

theorem claim_C6_witness :
    Scene.fromStr (str ("3")) = .error .mk :=
  claim_C6_scene_codes.2.2.2 _ (by decide) (by decide) (by decide)

/-- C7 fails on the code: `Device::device_info` discards the result of
`self.device_info.changed().await` (`let _ = ...`), so a closed
notification channel is never surfaced as an error.  When publish
succeeds and the channel is closed before any snapshot was ever
received, the borrowed slot still holds the default measurement and
`DeviceInfo::from` panics at `expect("valid measurement")`; when a stale
snapshot was present, the stale snapshot is returned as success.  An
error is returned only for a publish failure. -/
theorem claim_C7_divergence :
    Device.deviceInfo ⟨none, true, Measurement.default⟩ = .panic ∧
    (∀ t raw, Device.deviceInfo ⟨none, true, ⟨t, some raw⟩⟩ =
      .ok (DeviceInfo.ofRaw t raw)) ∧
    ∀ ce closed slot, Device.deviceInfo ⟨some ce, closed, slot⟩ =
      .err (.mqttClientError ce) :=
  ⟨rfl, fun _ _ => rfl, fun _ _ _ => rfl⟩

/-- C8: once the event loop has observed an outgoing disconnect
notification (setting the `disconnect` flag), a connection-aborted
connection error terminates the loop cleanly with `Ok(())`; while no
disconnect has been requested, any connection-level error leaves the
loop polling in the same state. -/
theorem claim_C8_disconnect_shutdown :
    (∀ now s, DeviceLoop.step now s .outgoingDisconnect =
        .next { s with disconnect := true } ∧
      DeviceLoop.step now { s with disconnect := true } .connErrorAborted =
        .exitOk) ∧
    ∀ now s, s.disconnect = false →
      DeviceLoop.step now s .connErrorAborted = .next s ∧
      DeviceLoop.step now s .connErrorOther = .next s := by
  constructor
  · intro now s
    exact ⟨rfl, rfl⟩
  · intro now s h
    exact ⟨by simp [DeviceLoop.step, h], rfl⟩

theorem claim_C8_witness :
    DeviceLoop.step 0 ⟨false, true, Measurement.default⟩ .connErrorAborted =
      .next ⟨false, true, Measurement.default⟩ ∧
    DeviceLoop.step 0 ⟨false, true, Measurement.default⟩ .connErrorOther =
      .next ⟨false, true, Measurement.default⟩ :=
  claim_C8_disconnect_shutdown.2 0 ⟨false, true, Measurement.default⟩ rfl

/-- C9, counterexample: for device type `HMA-1` and address `ab12` the
code builds the control topic `hame_energy/HMA-1/App/ab12/ctrl`, which is
not the claimed `<namespace>/App/<device-type>/<device-address>/ctrl`
(i.e. `hame_energy/App/HMA-1/ab12/ctrl`). -/
theorem claim_C9_counterexample :
    DeviceOptions.control_topic ⟨"HMA-1", "ab12"⟩ ≠
      "hame_energy/App/HMA-1/ab12/ctrl" ∧
    DeviceOptions.control_topic ⟨"HMA-1", "ab12"⟩ =
      "hame_energy/HMA-1/App/ab12/ctrl" := by
  constructor
  · decide
  · rfl

/-- C9, amended (the `App` segment comes after the device type, mirroring
the status topic): for every device identity, `device_info` publishes
exactly the literal payload `cd=1` with at-least-once delivery and no
retain flag on the control topic
`hame_energy/<device-type>/App/<device-address>/ctrl`, while the status
topic is `hame_energy/<device-type>/device/<device-address>/ctrl`. -/
theorem claim_C9_topics (ty mac : String) :
    Device.refreshPublish ⟨ty, mac⟩ =
      ⟨"hame_energy/" ++ ty ++ "/App/" ++ mac ++ "/ctrl", .atLeastOnce,
        false, "cd=1"⟩ ∧
    DeviceOptions.data_topic ⟨ty, mac⟩ =
      "hame_energy/" ++ ty ++ "/device/" ++ mac ++ "/ctrl" :=
  ⟨rfl, rfl⟩

/-- C10: the device-info decode depends only on the 16 required protocol
keys: inserting any number of additional non-required keys into the
parsed mapping leaves the decode result unchanged, and in particular a
successful decode stays successful with the same record. -/
theorem claim_C10_extra_keys_ignored (m : Message) (extras : List (Str × Str))
    (h : ∀ kv ∈ extras, kv.1 ∉ requiredDeviceInfoKeys) :
    RawDeviceInfo.tryFrom
        ⟨extras.foldl (fun p kv => mapInsert p kv.1 kv.2) m.payload⟩ =
      RawDeviceInfo.tryFrom m ∧
    ∀ r, RawDeviceInfo.tryFrom m = .ok r →
      RawDeviceInfo.tryFrom
          ⟨extras.foldl (fun p kv => mapInsert p kv.1 kv.2) m.payload⟩ =
        .ok r := by
  have key : RawDeviceInfo.tryFrom
      ⟨extras.foldl (fun p kv => mapInsert p kv.1 kv.2) m.payload⟩ =
      RawDeviceInfo.tryFrom m := by
    apply tryFrom_congr
    intro n hn
    exact mapLookup_foldl_mapInsert extras m.payload n
      (fun kv hkv heq => h kv hkv (heq.symm ▸ hn))
  exact ⟨key, fun r hr => key.trans hr⟩

theorem claim_C10_witness :
    RawDeviceInfo.tryFrom
        ⟨[(str ("zz"), str ("5"))].foldl
          (fun p kv => mapInsert p kv.1 kv.2) (Message.mk []).payload⟩ =
      RawDeviceInfo.tryFrom ⟨[]⟩ :=
  (claim_C10_extra_keys_ignored ⟨[]⟩ [(str ("zz"), str ("5"))] (by decide)).1
